import Mathlib

/-!
Shallow embedding of the bless-net node session scripts
(`src/bless.js`, `src/unnamed/part_000`, `src/unnamed/part_001`) and proofs
about their retry executor, lifecycle loops and orchestration.

HTTP is modelled by an oracle `ℕ → FetchOutcome`: successive underlying
`fetch` calls of a (sequential) execution consume the oracle at increasing
indices, so index deltas count attempts.  Unbounded JavaScript loops are
unrolled with explicit fuel; `none` always means "the loop was still running
at the fuel bound", never an error.
-/

namespace BlessNet

/-- An HTTP response as the scripts observe it: the `ok` flag and `statusText`
consulted by part_000's `retryFetch` (part_000:100-104), whether
`response.json()` parses (`jsonOk`), and the `ip` field of the parsed body
(`jsonIp`), which the IP-service branch of `fetchIpAddress` extracts. -/
structure Response where
  ok : Bool
  statusText : String
  jsonOk : Bool
  jsonIp : String
deriving DecidableEq, Repr

/-- Outcome of one underlying `fetch` call: the promise either rejects with a
network-level error message or resolves to a response. -/
inductive FetchOutcome where
  | netErr (msg : String)
  | resp (r : Response)
deriving DecidableEq, Repr

/-- The JavaScript errors the scripts raise or observe: a rejected `fetch`
(network error), the `HTTP Error: ...` thrown by `retryFetch` on a non-ok
response (part_000:102), and a failing `response.json()`. -/
inductive JsError where
  | network (msg : String)
  | http (statusText : String)
  | jsonParse
deriving DecidableEq, Repr

/-- Message text of an error, as interpolated into the scripts' logs. -/
def JsError.message : JsError → String
  | JsError.network m => m
  | JsError.http st => "HTTP Error: " ++ st
  | JsError.jsonParse => "json parse error"

deriving instance DecidableEq for Except

/-- One attempt of `retryFetch`'s try block (part_000:99-104): a rejected
fetch surfaces as a network error; a response with `ok = false` is thrown as
`HTTP Error: statusText`; an ok response is returned. -/
def attemptResult (o : FetchOutcome) : Except JsError Response :=
  match o with
  | FetchOutcome.netErr m => Except.error (JsError.network m)
  | FetchOutcome.resp r =>
    if r.ok then Except.ok r else Except.error (JsError.http r.statusText)

theorem attemptResult_ok_elim (o : FetchOutcome) (r : Response)
    (h : attemptResult o = Except.ok r) :
    o = FetchOutcome.resp r ∧ r.ok = true := by
  cases o with
  | netErr m => simp [attemptResult] at h
  | resp r1 =>
    by_cases hb : r1.ok = true
    · simp [attemptResult, hb] at h
      subst h
      exact ⟨rfl, hb⟩
    · simp [attemptResult, hb] at h

/-- part_000:97-114, `retryFetch(url, options, infiniteRetry = false,
retries = 3, delay = 1000)`.  The `while (true)` loop: try one fetch; on any
caught error, if `!infiniteRetry && retries === 0` rethrow that error,
otherwise log, await `setTimeout(delay)` and loop with `retries` decremented
unless `infiniteRetry`.  `retries` is a JavaScript number, embedded as `ℤ`.
`idx` is the next oracle index (so `returned index - starting index` is the
number of attempts this call made); `waits` accumulates every awaited delay in
order; `fuel` bounds the loop unrolling.  The request `options` and the 30 s
transport timeout have no observable effect beyond the oracle outcome and are
not modelled. -/
def retryFetchAux (oracle : ℕ → FetchOutcome) (infiniteRetry : Bool) (delay : ℕ) :
    ℕ → ℤ → ℕ → List ℕ → Option (Except JsError Response × ℕ × List ℕ)
  | 0, _, _, _ => none
  | fuel + 1, retries, idx, waits =>
    match attemptResult (oracle idx) with
    | Except.ok r => some (Except.ok r, idx + 1, waits)
    | Except.error e =>
      if infiniteRetry = false ∧ retries = 0 then some (Except.error e, idx + 1, waits)
      else retryFetchAux oracle infiniteRetry delay fuel
        (if infiniteRetry then retries else retries - 1) (idx + 1) (waits ++ [delay])

/-- Whether a finished `retryFetchAux` run raised (threw) an error. -/
def raisedError : Option (Except JsError Response × ℕ × List ℕ) → Bool
  | some (Except.error _, _, _) => true
  | _ => false

/-- With `infiniteRetry = false` and every attempt failing, `retryFetch`
makes exactly `N + 1` attempts (consuming oracle indices `idx .. idx + N`),
waits the fixed `delay` exactly `N` times, and rethrows the last attempt's
error. -/
theorem retryFetchAux_allfail_bounded (oracle : ℕ → FetchOutcome)
    (errs : ℕ → JsError) (delay : ℕ)
    (hfail : ∀ i, attemptResult (oracle i) = Except.error (errs i)) :
    ∀ (N fuel idx : ℕ) (waits : List ℕ), N < fuel →
      retryFetchAux oracle false delay fuel (N : ℤ) idx waits =
        some (Except.error (errs (idx + N)), idx + N + 1,
          waits ++ List.replicate N delay) := by
  intro N
  induction N with
  | zero =>
    intro fuel idx waits hf
    match fuel, hf with
    | fuel + 1, _ =>
      simp [retryFetchAux, hfail idx]
  | succ n ih =>
    intro fuel idx waits hf
    match fuel, hf with
    | fuel + 1, hf =>
      have hrec := ih fuel (idx + 1) (waits ++ [delay]) (by omega)
      have e1 : idx + 1 + n = idx + (n + 1) := by omega
      rw [e1] at hrec
      have e2 : waits ++ [delay] ++ List.replicate n delay =
          waits ++ List.replicate (n + 1) delay := by
        rw [List.append_assoc, List.singleton_append, ← List.replicate_succ]
      rw [e2] at hrec
      have hd : ((n + 1 : ℕ) : ℤ) - 1 = (n : ℤ) := by push_cast; ring
      simp [retryFetchAux, hfail idx, hd, hrec]
      omega

/-- With `infiniteRetry = true`, no run of the retry loop ever finishes by
raising an error: the rethrow branch requires `!infiniteRetry`. -/
theorem retryFetchAux_infinite_no_raise (oracle : ℕ → FetchOutcome) (delay : ℕ) :
    ∀ (fuel : ℕ) (retries : ℤ) (idx : ℕ) (waits : List ℕ),
      raisedError (retryFetchAux oracle true delay fuel retries idx waits) = false := by
  intro fuel
  induction fuel with
  | zero => intro retries idx waits; rfl
  | succ n ih =>
    intro retries idx waits
    match hA : attemptResult (oracle idx) with
    | Except.ok r => simp [retryFetchAux, hA, raisedError]
    | Except.error e =>
      simp only [retryFetchAux, hA]
      have hcond : ¬ (true = false ∧ retries = 0) := by simp
      rw [if_neg hcond]
      exact ih _ (idx + 1) (waits ++ [delay])

/-- With `infiniteRetry = true` and the first success at relative attempt `k`,
the loop returns that success after `k + 1` attempts, having waited the fixed
`delay` exactly `k` times. -/
theorem retryFetchAux_first_success (oracle : ℕ → FetchOutcome) (delay : ℕ)
    (r : Response) :
    ∀ (k fuel idx : ℕ) (retries : ℤ) (waits : List ℕ),
      (∀ j, j < k → ∃ e, attemptResult (oracle (idx + j)) = Except.error e) →
      attemptResult (oracle (idx + k)) = Except.ok r →
      k < fuel →
      retryFetchAux oracle true delay fuel retries idx waits =
        some (Except.ok r, idx + k + 1, waits ++ List.replicate k delay) := by
  intro k
  induction k with
  | zero =>
    intro fuel idx retries waits _ hsucc hf
    match fuel, hf with
    | fuel + 1, _ =>
      simp only [Nat.add_zero] at hsucc
      simp [retryFetchAux, hsucc]
  | succ n ih =>
    intro fuel idx retries waits hfail hsucc hf
    match fuel, hf with
    | fuel + 1, hf =>
      obtain ⟨e, he⟩ := hfail 0 (by omega)
      simp only [Nat.add_zero] at he
      have hfail' : ∀ j, j < n →
          ∃ e', attemptResult (oracle (idx + 1 + j)) = Except.error e' := by
        intro j hj
        have h3 := hfail (j + 1) (by omega)
        have e1 : idx + (j + 1) = idx + 1 + j := by omega
        rw [e1] at h3
        exact h3
      have hsucc' : attemptResult (oracle (idx + 1 + n)) = Except.ok r := by
        have e1 : idx + (n + 1) = idx + 1 + n := by omega
        rw [e1] at hsucc
        exact hsucc
      have hrec := ih fuel (idx + 1) retries (waits ++ [delay]) hfail' hsucc' (by omega)
      have e2 : idx + 1 + n + 1 = idx + (n + 1) + 1 := by omega
      rw [e2] at hrec
      have e3 : waits ++ [delay] ++ List.replicate n delay =
          waits ++ List.replicate (n + 1) delay := by
        rw [List.append_assoc, List.singleton_append, ← List.replicate_succ]
      rw [e3] at hrec
      simp [retryFetchAux, he, hrec]

/-- Any response a `retryFetch` run returns was checked `ok` by the try block. -/
theorem retryFetchAux_returns_ok (oracle : ℕ → FetchOutcome)
    (infiniteRetry : Bool) (delay : ℕ) :
    ∀ (fuel : ℕ) (retries : ℤ) (idx : ℕ) (waits : List ℕ)
      (r : Response) (n : ℕ) (w : List ℕ),
      retryFetchAux oracle infiniteRetry delay fuel retries idx waits =
        some (Except.ok r, n, w) →
      r.ok = true := by
  intro fuel
  induction fuel with
  | zero => intro _ _ _ _ _ _ h; exact absurd h (by simp [retryFetchAux])
  | succ m ih =>
    intro retries idx waits r n w h
    match hA : attemptResult (oracle idx) with
    | Except.ok r0 =>
      simp only [retryFetchAux, hA, Option.some.injEq, Prod.mk.injEq,
        Except.ok.injEq] at h
      obtain ⟨h1, -, -⟩ := h
      subst h1
      exact (attemptResult_ok_elim _ _ hA).2
    | Except.error e =>
      by_cases hc : infiniteRetry = false ∧ retries = 0
      · simp only [retryFetchAux, hA, if_pos hc] at h
        simp at h
      · simp only [retryFetchAux, hA, if_neg hc] at h
        exact ih _ _ _ _ _ _ h

/-- Any response a `retryFetch` run returns resolved from some oracle index. -/
theorem retryFetchAux_ok_source (oracle : ℕ → FetchOutcome)
    (infiniteRetry : Bool) (delay : ℕ) :
    ∀ (fuel : ℕ) (retries : ℤ) (idx : ℕ) (waits : List ℕ)
      (r : Response) (n : ℕ) (w : List ℕ),
      retryFetchAux oracle infiniteRetry delay fuel retries idx waits =
        some (Except.ok r, n, w) →
      ∃ i, oracle i = FetchOutcome.resp r := by
  intro fuel
  induction fuel with
  | zero => intro _ _ _ _ _ _ h; exact absurd h (by simp [retryFetchAux])
  | succ m ih =>
    intro retries idx waits r n w h
    match hA : attemptResult (oracle idx) with
    | Except.ok r0 =>
      simp only [retryFetchAux, hA, Option.some.injEq, Prod.mk.injEq,
        Except.ok.injEq] at h
      obtain ⟨h1, -, -⟩ := h
      subst h1
      exact ⟨idx, (attemptResult_ok_elim _ _ hA).1⟩
    | Except.error e =>
      by_cases hc : infiniteRetry = false ∧ retries = 0
      · simp only [retryFetchAux, hA, if_pos hc] at h
        simp at h
      · simp only [retryFetchAux, hA, if_neg hc] at h
        exact ih _ _ _ _ _ _ h

/-- With every attempt failing, an `infiniteRetry = true` run never finishes:
the loop is still retrying at every fuel bound. -/
theorem retryFetchAux_allfail_infinite (oracle : ℕ → FetchOutcome)
    (errs : ℕ → JsError) (delay : ℕ)
    (hfail : ∀ i, attemptResult (oracle i) = Except.error (errs i)) :
    ∀ (fuel : ℕ) (retries : ℤ) (idx : ℕ) (waits : List ℕ),
      retryFetchAux oracle true delay fuel retries idx waits = none := by
  intro fuel
  induction fuel with
  | zero => intro retries idx waits; rfl
  | succ n ih =>
    intro retries idx waits
    simp only [retryFetchAux, hfail idx]
    have hcond : ¬ (true = false ∧ retries = 0) := by simp
    rw [if_neg hcond]
    exact ih _ (idx + 1) (waits ++ [delay])


/-- JavaScript `String.prototype.split` with a one-character separator, on
the character list of the string: `"".split(sep)` is `[""]`, a separator at
either end or two adjacent separators produce empty fields.  Implemented by
structural recursion so that concrete runs reduce. -/
def jsSplitChar (sep : Char) : List Char → List (List Char)
  | [] => [[]]
  | c :: cs =>
    match jsSplitChar sep cs with
    | [] => [[c]]
    | h :: t => if c = sep then [] :: h :: t else (c :: h) :: t

def jsSplit (sep : Char) (s : String) : List String :=
  (jsSplitChar sep s.data).map (fun cs => ⟨cs⟩)

/-- Whitespace for `trim` (the scripts only ever trim ASCII whitespace:
tokens, id lines and prompt answers). -/
def isWs (c : Char) : Bool := c = ' ' || c = '\t' || c = '\n' || c = '\r'

/-- JavaScript `String.prototype.trim`: strip whitespace from both ends. -/
def jsTrim (s : String) : String :=
  ⟨((s.data.dropWhile isWs).reverse.dropWhile isWs).reverse⟩

/-- One parsed line of id.txt: JavaScript `line.split(':')` destructured as
`[nodeId, hardwareId]` (part_000:126, bless.js:107, part_001:60).  A line with
no `:` leaves `hardwareId` undefined, modelled as `none`; extra `:`-separated
components are dropped, exactly as destructuring does. -/
structure IdEntry where
  nodeId : String
  hardwareId : Option String
deriving DecidableEq, Repr

def parseLine (line : String) : IdEntry :=
  match jsSplit ':' line with
  | [] => ⟨"", none⟩
  | [n] => ⟨n, none⟩
  | n :: h :: _ => ⟨n, some h⟩

/-- id.txt parsing in part_000:121-128 and bless.js:102-109: trim the file,
split on newlines, map every line — blank lines are NOT filtered out. -/
def parseIdsP0 (content : String) : List IdEntry :=
  (jsSplit '\n' (jsTrim content)).map parseLine

/-- id.txt parsing in part_001's readNodeAndHardwareIds (part_001:57-64):
blank lines are filtered out by `.filter(id => id)`, but nothing checks that a
hardwareId is present. -/
def parseIdsP1 (content : String) : List IdEntry :=
  ((jsSplit '\n' (jsTrim content)).filter (fun l => l != "")).map parseLine

/-- The per-entry guard of part_000:133 and bless.js:114,
`if (!nodeId || !hardwareId)`: JavaScript truthiness of both components
(`undefined` and the empty string are falsy). -/
def entryValid (e : IdEntry) : Bool :=
  (e.nodeId != "") && (match e.hardwareId with
    | some h => h != ""
    | none => false)

/-- Kind of API request a lifecycle issues. -/
inductive ReqKind where
  | register
  | session
  | ping
deriving DecidableEq, Repr

/-- An HTTP request as issued by the lifecycles, with the bearer token
attached to it and, for registration, the body's `ipAddress` field
(`none` for session and ping requests, which send no body). -/
structure Request where
  kind : ReqKind
  token : String
  ip : Option String
deriving DecidableEq, Repr

/-- Trace state of one lifecycle task: the next fetch-outcome index, the next
user.txt-read index (`fs.readFile('user.txt')` results are an oracle
`ℕ → String` consumed once per read), every request issued so far, and every
awaited `setTimeout` delay in milliseconds, in order. -/
structure TraceSt where
  fidx : ℕ
  ridx : ℕ
  reqs : List Request
  waits : List ℕ
deriving DecidableEq, Repr

/-- One raw fetch-plus-json step of part_001 (registerNode part_001:115-144,
startSession part_001:146-161, pingNode part_001:163-184 all call `fetch`
directly, with no retry wrapper): a rejected fetch raises the network error, a
failing `response.json()` raises a parse error, and any response whose body
parses is accepted — part_001 never consults `response.ok`.  The step inspects
exactly one oracle index. -/
def p1Call (oracle : ℕ → FetchOutcome) (fidx : ℕ) : Except JsError Response :=
  match oracle fidx with
  | FetchOutcome.netErr m => Except.error (JsError.network m)
  | FetchOutcome.resp r =>
    if r.jsonOk then Except.ok r else Except.error JsError.jsonParse

/-- One iteration of part_001's `processNode` while-loop (part_001:201-231):
registerNode (readAuthToken, then one fetch), startSession (readAuthToken, one
fetch), pingNode (readAuthToken, one fetch), then `setInterval` + `break`.
Each of the three helpers re-reads user.txt, so three reads per iteration.
`Except.error` is the caught-error path (part_001:227-229 — log only, loop
again, NO delay: nothing is appended to `waits`); `Except.ok` means the node
reached the Heartbeating stage. -/
def p1Iteration (oracle : ℕ → FetchOutcome) (userFile : ℕ → String) (ip : String)
    (st : TraceSt) : Except TraceSt TraceSt :=
  let st1 : TraceSt := ⟨st.fidx + 1, st.ridx + 1,
    st.reqs ++ [⟨ReqKind.register, userFile st.ridx, some ip⟩], st.waits⟩
  match p1Call oracle st.fidx with
  | Except.error _ => Except.error st1
  | Except.ok _ =>
    let st2 : TraceSt := ⟨st1.fidx + 1, st1.ridx + 1,
      st1.reqs ++ [⟨ReqKind.session, userFile st1.ridx, none⟩], st1.waits⟩
    match p1Call oracle st1.fidx with
    | Except.error _ => Except.error st2
    | Except.ok _ =>
      let st3 : TraceSt := ⟨st2.fidx + 1, st2.ridx + 1,
        st2.reqs ++ [⟨ReqKind.ping, userFile st2.ridx, none⟩], st2.waits⟩
      match p1Call oracle st2.fidx with
      | Except.error _ => Except.error st3
      | Except.ok _ => Except.ok st3

/-- part_001's `processNode` `while (true)` loop, `fuel` bounding the number
of iterations: `some st` means the node reached Heartbeating (`setInterval`
scheduled, `break` executed) with trace `st`; `none` means the loop was still
retrying at the fuel bound. -/
def processNodeP1 (oracle : ℕ → FetchOutcome) (userFile : ℕ → String) (ip : String) :
    ℕ → TraceSt → Option TraceSt
  | 0, _ => none
  | fuel + 1, st =>
    match p1Iteration oracle userFile ip st with
    | Except.ok st' => some st'
    | Except.error st' => processNodeP1 oracle userFile ip fuel st'

/-- A lifecycle task scheduled by part_001's orchestrator. -/
structure SpawnedTask where
  nodeId : String
  hardwareId : Option String
deriving DecidableEq, Repr

/-- part_001's `runAll` loop (part_001:244-247): `processNode(...)` is invoked
WITHOUT `await`, so the loop only schedules one independent lifecycle task per
parsed entry and immediately moves on.  The spawned list is a pure function of
the parsed entries — it cannot depend on any fetch outcome, and no per-entry
validity check is performed.  Each spawned task then executes as
`processNodeP1` against that node's own oracles; the tasks share no mutable
state (they receive the same read-only `ipAddress` value). -/
def runAllP1spawn (ids : List IdEntry) : List SpawnedTask :=
  ids.map (fun e => ⟨e.nodeId, e.hardwareId⟩)

/-- One scheduled heartbeat firing in part_001 — the `setInterval` callback at
part_001:215-223: ping, and on failure LOG then RETHROW (`throw error` at
part_001:221).  The first component is the settled state of the callback's
promise: `Except.error e` means the rejection escapes the firing.  Only the
catch block's log line is recorded. -/
def scheduledFiringP1 (oracle : ℕ → FetchOutcome) (fidx : ℕ) :
    Except JsError Response × List String :=
  match p1Call oracle fidx with
  | Except.ok r => (Except.ok r, [])
  | Except.error e => (Except.error e, ["Error during ping: " ++ e.message])

/-- part_000's pingNode transport call (part_000:164-167): the initial ping
goes through `retryFetch` with its DEFAULT arguments — `infiniteRetry = false,
retries = 3, delay = 1000` — not as a bare single attempt. -/
def pingFetchP0 (oracle : ℕ → FetchOutcome) (callFuel fidx : ℕ) (waits : List ℕ) :
    Option (Except JsError Response × ℕ × List ℕ) :=
  retryFetchAux oracle false 1000 callFuel 3 fidx waits

/-- One scheduled heartbeat firing in part_000 — `setInterval(pingNode, 60000)`
at part_000:180: the firing repeats `pingNode` with NO surrounding catch, so
once the bounded retry wrapper is exhausted the callback's promise settles as
a rejection that nothing in part_000 handles. -/
def scheduledFiringP0 (oracle : ℕ → FetchOutcome) (callFuel fidx : ℕ) :
    Option (Except JsError Response × ℕ) :=
  match pingFetchP0 oracle callFuel fidx [] with
  | none => none
  | some (Except.error e, f, _) => some (Except.error e, f)
  | some (Except.ok r, f, _) =>
    if r.jsonOk then some (Except.ok r, f) else some (Except.error JsError.jsonParse, f)

/-- One iteration of the per-node `while (true)` loop inside part_000's runAll
(part_000:138-186): read user.txt once (part_000:140); register and
start-session through `retryFetch` with `infiniteRetry = true`
(part_000:143-150, 155-158); `response.json()` after each; ping through
`pingFetchP0` plus `response.json()`; then `setInterval` + `break`.  The catch
block (part_000:182-185) logs and awaits a 5000 ms `setTimeout` before
looping.  `none`: an infinite-retry call was still retrying at `callFuel`;
`some (Except.error st)`: an error was caught, the 5000 ms recovery delay is
recorded, the loop continues from `st`; `some (Except.ok st)`: the node
reached Heartbeating. -/
def p0Iteration (oracle : ℕ → FetchOutcome) (userFile : ℕ → String) (ip : String)
    (callFuel : ℕ) (st : TraceSt) : Option (Except TraceSt TraceSt) :=
  let tok := userFile st.ridx
  let stR : TraceSt := ⟨st.fidx, st.ridx + 1,
    st.reqs ++ [⟨ReqKind.register, tok, some ip⟩], st.waits⟩
  match retryFetchAux oracle true 1000 callFuel 3 stR.fidx stR.waits with
  | none => none
  | some (Except.error _, f, w) =>
    some (Except.error ⟨f, stR.ridx, stR.reqs, w ++ [5000]⟩)
  | some (Except.ok r, f, w) =>
    if r.jsonOk = false then some (Except.error ⟨f, stR.ridx, stR.reqs, w ++ [5000]⟩)
    else
      let stS : TraceSt := ⟨f, stR.ridx, stR.reqs ++ [⟨ReqKind.session, tok, none⟩], w⟩
      match retryFetchAux oracle true 1000 callFuel 3 stS.fidx stS.waits with
      | none => none
      | some (Except.error _, f2, w2) =>
        some (Except.error ⟨f2, stS.ridx, stS.reqs, w2 ++ [5000]⟩)
      | some (Except.ok r2, f2, w2) =>
        if r2.jsonOk = false then
          some (Except.error ⟨f2, stS.ridx, stS.reqs, w2 ++ [5000]⟩)
        else
          let stP : TraceSt := ⟨f2, stS.ridx, stS.reqs ++ [⟨ReqKind.ping, tok, none⟩], w2⟩
          match pingFetchP0 oracle callFuel stP.fidx stP.waits with
          | none => none
          | some (Except.error _, f3, w3) =>
            some (Except.error ⟨f3, stP.ridx, stP.reqs, w3 ++ [5000]⟩)
          | some (Except.ok r3, f3, w3) =>
            if r3.jsonOk = false then
              some (Except.error ⟨f3, stP.ridx, stP.reqs, w3 ++ [5000]⟩)
            else some (Except.ok ⟨f3, stP.ridx, stP.reqs, w3⟩)

/-- part_000's per-node `while (true)` loop: keep running `p0Iteration` until
the node reaches Heartbeating; `iterFuel` bounds the iterations. -/
def processNodeP0 (oracle : ℕ → FetchOutcome) (userFile : ℕ → String) (ip : String)
    (callFuel : ℕ) : ℕ → TraceSt → Option TraceSt
  | 0, _ => none
  | iterFuel + 1, st =>
    match p0Iteration oracle userFile ip callFuel st with
    | none => none
    | some (Except.ok st') => some st'
    | some (Except.error st') => processNodeP0 oracle userFile ip callFuel iterFuel st'

/-- Accumulated state of part_000's runAll: entries logged and skipped as
invalid, nodes whose processing loop was entered, nodes that reached
Heartbeating (`break`), and the sequential trace. -/
structure P0Run where
  skipped : List String
  started : List String
  heartbeating : List String
  st : TraceSt
deriving DecidableEq, Repr

/-- part_000's runAll loop over the parsed entries (part_000:132-187): an
invalid entry is logged and skipped (`continue`), and the loop moves to the
next entry; a valid entry's whole onboarding is AWAITED INLINE — the `for`
loop reaches the next entry only after the current node's `break`
(Heartbeating).  When a node's onboarding is still running at the fuel bound
the accumulated run state is returned as is: no later entry has started. -/
def runAllP0 (oracle : ℕ → FetchOutcome) (userFile : ℕ → String) (ip : String)
    (callFuel iterFuel : ℕ) : List IdEntry → P0Run → P0Run
  | [], acc => acc
  | e :: rest, acc =>
    if entryValid e then
      match processNodeP0 oracle userFile ip callFuel iterFuel acc.st with
      | none => ⟨acc.skipped, acc.started ++ [e.nodeId], acc.heartbeating, acc.st⟩
      | some st' =>
        runAllP0 oracle userFile ip callFuel iterFuel rest
          ⟨acc.skipped, acc.started ++ [e.nodeId], acc.heartbeating ++ [e.nodeId], st'⟩
    else
      runAllP0 oracle userFile ip callFuel iterFuel rest
        ⟨acc.skipped ++ [e.nodeId], acc.started, acc.heartbeating, acc.st⟩

/-- JavaScript regex class `[0-9]`: code points 48-57. -/
def isDig (c : Char) : Bool := 48 ≤ c.toNat && c.toNat ≤ 57

/-- One octet group of the `isValidIP` regex (part_000:26, bless.js:26,
part_001:10), `25[0-5]|2[0-4][0-9]|[01]?[0-9][0-9]?`, compiled by the length
of the matched text (the group matches 1 to 3 characters, all of them digits):
one character matches only via `[01]?` empty with `[0-9]` and `[0-9]?` empty —
any digit; two characters only via `[0-9][0-9]?` or `[01][0-9]` — both of
which are covered by "two digits"; three characters via any of the three
alternatives with every position filled.  Code points: '0' = 48, '1' = 49,
'2' = 50, '4' = 52, '5' = 53. -/
def octetMatch : List Char → Bool
  | [c] => isDig c
  | [a, b] => isDig a && isDig b
  | [a, b, c] =>
    (a.toNat == 50 && b.toNat == 53 && 48 ≤ c.toNat && c.toNat ≤ 53)
    || (a.toNat == 50 && 48 ≤ b.toNat && b.toNat ≤ 52 && isDig c)
    || ((a.toNat == 48 || a.toNat == 49) && isDig b && isDig c)
  | _ => false

/-- part_000:25-28 `isValidIP` — `ipRegex.test(ip)` with the regex anchored by
`^...$` and built as four octet groups separated by literal `\.`.  Every
octet alternative matches only digit characters, so a full-string match
decomposes uniquely at the `.` characters: the regex accepts exactly the
strings whose split on `.` yields four parts, each matching the octet group. -/
def isValidIP (s : String) : Bool :=
  (jsSplit '.' s).length == 4 && (jsSplit '.' s).all (fun p => octetMatch p.data)

/-- Numeric value of a decimal digit string (most significant first). -/
def digitsToNat (cs : List Char) : ℕ :=
  cs.foldl (fun n c => 10 * n + (c.toNat - 48)) 0

/-- Modelled from the spec's words, for comparison with the source's
`isValidIP`: a dotted-quad IPv4 literal whose octets lie in 0-255 — four
`.`-separated fields, each a nonempty decimal numeral of at most three digits
whose value is at most 255. -/
def specOctet (cs : List Char) : Bool :=
  (decide (cs ≠ [])) && (decide (cs.length ≤ 3)) && cs.all isDig
    && (decide (digitsToNat cs ≤ 255))

def specDottedQuad (s : String) : Bool :=
  (jsSplit '.' s).length == 4 && (jsSplit '.' s).all (fun p => specOctet p.data)

theorem octetMatch_eq_specOctet (cs : List Char) : octetMatch cs = specOctet cs := by
  match cs with
  | [] => rfl
  | [a] =>
    rw [Bool.eq_iff_iff]
    simp [octetMatch, specOctet, digitsToNat, isDig]
    omega
  | [a, b] =>
    rw [Bool.eq_iff_iff]
    simp [octetMatch, specOctet, digitsToNat, isDig]
    omega
  | [a, b, c] =>
    rw [Bool.eq_iff_iff]
    simp [octetMatch, specOctet, digitsToNat, isDig]
    omega
  | a :: b :: c :: d :: rest =>
    have hlen : ¬ ((a :: b :: c :: d :: rest).length ≤ 3) := by
      simp only [List.length_cons]
      omega
    simp [octetMatch, specOctet, hlen]

theorem isValidIP_eq_specDottedQuad (s : String) : isValidIP s = specDottedQuad s := by
  have hall : ∀ ps : List String,
      ps.all (fun p => octetMatch p.data) = ps.all (fun p => specOctet p.data) := by
    intro ps
    induction ps with
    | nil => rfl
    | cons hd tl ih => simp [List.all_cons, octetMatch_eq_specOctet, ih]
  unfold isValidIP specDottedQuad
  rw [hall]

/-- Result of part_000's `fetchIpAddress` (part_000:44-69). -/
inductive IpOutcome where
  | ip (v : String)
  | err (e : JsError)
deriving DecidableEq, Repr

/-- State of a `fetchIpAddress` run: next prompt-input index, next
fetch-outcome index, and the error log lines produced so far. -/
structure IpFetchSt where
  inIdx : ℕ
  fIdx : ℕ
  logs : List String
deriving DecidableEq, Repr

/-- The IP-service branch of part_000's `fetchIpAddress` (part_000:57, 64):
`retryFetch(ipServiceUrl, {}, true)` — infinite retry, default retries and
delay — then `.json()` then `.ip`; a failing `.json()` rejects the whole
`fetchIpAddress` call. -/
def serviceCall (oracle : ℕ → FetchOutcome) (callFuel fIdx : ℕ) :
    Option (Except JsError String × ℕ) :=
  match retryFetchAux oracle true 1000 callFuel 3 fIdx [] with
  | none => none
  | some (Except.error e, f, _) => some (Except.error e, f)
  | some (Except.ok r, f, _) =>
    if r.jsonOk then some (Except.ok r.jsonIp, f) else some (Except.error JsError.jsonParse, f)

/-- part_000:44-69 `fetchIpAddress`: prompt for a choice; choice `"1"` prompts
for an IP and, if `isValidIP` rejects it, logs an error and recurses
(re-prompts); choice `"2"` and the default branch fetch from the IP service;
choice `"3"` returns the local interface address (supplied here as the opaque
`localIp`, since `os.networkInterfaces()` is outside the program).  `inputs`
is the stream of `promptInput` answers; `fuel` bounds the recursion. -/
def fetchIpAddressP0 (inputs : ℕ → String) (oracle : ℕ → FetchOutcome)
    (localIp : String) (callFuel : ℕ) : ℕ → IpFetchSt → Option (IpOutcome × IpFetchSt)
  | 0, _ => none
  | fuel + 1, st =>
    if inputs st.inIdx = "1" then
      if isValidIP (inputs (st.inIdx + 1)) then
        some (IpOutcome.ip (inputs (st.inIdx + 1)), ⟨st.inIdx + 2, st.fIdx, st.logs⟩)
      else
        fetchIpAddressP0 inputs oracle localIp callFuel fuel
          ⟨st.inIdx + 2, st.fIdx, st.logs ++ ["Invalid IP address. Please try again."]⟩
    else if inputs st.inIdx = "2" then
      match serviceCall oracle callFuel st.fIdx with
      | none => none
      | some (Except.ok v, f) => some (IpOutcome.ip v, ⟨st.inIdx + 1, f, st.logs⟩)
      | some (Except.error e, f) => some (IpOutcome.err e, ⟨st.inIdx + 1, f, st.logs⟩)
    else if inputs st.inIdx = "3" then
      some (IpOutcome.ip localIp, ⟨st.inIdx + 1, st.fIdx, st.logs⟩)
    else
      match serviceCall oracle callFuel st.fIdx with
      | none => none
      | some (Except.ok v, f) =>
        some (IpOutcome.ip v,
          ⟨st.inIdx + 1, f, st.logs ++ ["Invalid choice. Defaulting to external IP service."]⟩)
      | some (Except.error e, f) =>
        some (IpOutcome.err e,
          ⟨st.inIdx + 1, f, st.logs ++ ["Invalid choice. Defaulting to external IP service."]⟩)

/-- C1: with `infiniteRetry = false` and a remaining-attempts counter `N`
(default 3), when every attempt fails with a network or an HTTP non-2xx
error, `retryFetch` makes exactly `N + 1` total attempts (consuming oracle
indices `0 .. N`) and then fails: it rethrows the last attempt's error — the
carrier of the spec's `RetryExhausted{lastError}`. -/
theorem retryFetch_bounded_exhausts_after_n_plus_one
    (oracle : ℕ → FetchOutcome) (errs : ℕ → JsError) (delay N fuel : ℕ)
    (hfail : ∀ i, attemptResult (oracle i) = Except.error (errs i))
    (hfuel : N < fuel) :
    retryFetchAux oracle false delay fuel (N : ℤ) 0 [] =
      some (Except.error (errs N), N + 1, List.replicate N delay) := by
  have h := retryFetchAux_allfail_bounded oracle errs delay hfail N fuel 0 [] hfuel
  simpa using h

theorem retryFetch_bounded_exhausts_witness :
    retryFetchAux (fun _ => FetchOutcome.netErr "down") false 1000 4 (3 : ℤ) 0 [] =
      some (Except.error (JsError.network "down"), 4, List.replicate 3 1000) :=
  retryFetch_bounded_exhausts_after_n_plus_one (fun _ => FetchOutcome.netErr "down")
    (fun _ => JsError.network "down") 1000 3 4 (fun _ => rfl) (by omega)

/-- C3: with `infiniteRetry = true`, `retryFetch` never raises — no finished
run under any oracle ends in an error — and after each failure it waits the
fixed `baseDelay` (1000 ms, no backoff growth, no jitter) and retries
unconditionally: with the first success at attempt `k`, it returns that
response after `k + 1` attempts and exactly `k` fixed 1000 ms waits. -/
theorem retryFetch_infinite_never_raises
    (oracle : ℕ → FetchOutcome) (r : Response) (k fuel : ℕ)
    (hfail : ∀ j, j < k → ∃ e, attemptResult (oracle j) = Except.error e)
    (hsucc : attemptResult (oracle k) = Except.ok r)
    (hfuel : k < fuel) :
    (∀ (orc : ℕ → FetchOutcome) (d f : ℕ) (rt : ℤ) (i : ℕ) (w : List ℕ),
      raisedError (retryFetchAux orc true d f rt i w) = false) ∧
    retryFetchAux oracle true 1000 fuel 3 0 [] =
      some (Except.ok r, k + 1, List.replicate k 1000) := by
  constructor
  · intro orc d f rt i w
    exact retryFetchAux_infinite_no_raise orc d f rt i w
  · have hfail' : ∀ j, j < k → ∃ e, attemptResult (oracle (0 + j)) = Except.error e := by
      intro j hj
      simpa using hfail j hj
    have hsucc' : attemptResult (oracle (0 + k)) = Except.ok r := by simpa using hsucc
    have h := retryFetchAux_first_success oracle 1000 r k fuel 0 3 [] hfail' hsucc' hfuel
    simpa using h

theorem retryFetch_infinite_never_raises_witness :
    (∀ (orc : ℕ → FetchOutcome) (d f : ℕ) (rt : ℤ) (i : ℕ) (w : List ℕ),
      raisedError (retryFetchAux orc true d f rt i w) = false) ∧
    retryFetchAux (fun i => if i < 2 then FetchOutcome.netErr "x"
        else FetchOutcome.resp ⟨true, "OK", true, "5.6.7.8"⟩) true 1000 3 3 0 [] =
      some (Except.ok ⟨true, "OK", true, "5.6.7.8"⟩, 2 + 1, List.replicate 2 1000) :=
  retryFetch_infinite_never_raises
    (fun i => if i < 2 then FetchOutcome.netErr "x"
      else FetchOutcome.resp ⟨true, "OK", true, "5.6.7.8"⟩)
    ⟨true, "OK", true, "5.6.7.8"⟩ 2 3
    (fun j hj => ⟨JsError.network "x", by simp [attemptResult, hj]⟩)
    (by simp [attemptResult]) (by omega)

/-- C10: every response `retryFetch` returns (rather than throws) satisfies
`response.ok = true`, regardless of the `infiniteRetry` flag or retry budget:
a non-2xx response is always rethrown into the retry path, never handed back
to the caller as a value. -/
theorem retryFetch_returns_only_ok_responses
    (oracle : ℕ → FetchOutcome) (infiniteRetry : Bool)
    (delay fuel : ℕ) (retries : ℤ) (idx : ℕ) (waits : List ℕ)
    (r : Response) (n : ℕ) (w : List ℕ)
    (h : retryFetchAux oracle infiniteRetry delay fuel retries idx waits =
      some (Except.ok r, n, w)) :
    r.ok = true :=
  retryFetchAux_returns_ok oracle infiniteRetry delay fuel retries idx waits r n w h

theorem retryFetch_returns_only_ok_witness :
    (⟨true, "OK", true, "5.6.7.8"⟩ : Response).ok = true :=
  retryFetch_returns_only_ok_responses
    (fun _ => FetchOutcome.resp ⟨true, "OK", true, "5.6.7.8"⟩)
    false 1000 1 3 0 [] ⟨true, "OK", true, "5.6.7.8"⟩ 1 [] rfl

/-- With nodes A and B configured, every fetch failing (so A's registration,
sent through `retryFetch(..., true)`, retries forever), part_000's runAll has
started only node A at EVERY fuel bound: node B's lifecycle never starts. -/
def p0SecondNodeNeverStarts : Prop :=
  ∀ (callFuel iterFuel : ℕ),
    runAllP0 (fun _ => FetchOutcome.netErr "down") (fun _ => "tok") "1.2.3.4"
      callFuel iterFuel [⟨"A", some "hA"⟩, ⟨"B", some "hB"⟩]
      ⟨[], [], [], ⟨0, 0, [], []⟩⟩ =
    ⟨[], ["A"], [], ⟨0, 0, [], []⟩⟩

/-- C2 counterexample: in part_000's orchestrator (whose runAll is one of the
claim's anchors) the property fails.  With two valid nodes A and B and every
fetch failing — so that A's registration, issued through
`retryFetch(..., true)`, retries forever — the sequential `for` loop stays
inside A's awaited onboarding at EVERY fuel bound: only A has started, and B
never starts a lifecycle, never reaches Heartbeating.  A's onboarding retries
therefore delay (here: entirely prevent) the start of the next node's
lifecycle, contradicting the claim. -/
theorem runAllP0_blocks_second_node_cx : p0SecondNodeNeverStarts := by
  intro callFuel iterFuel
  have hfail : ∀ i : ℕ, attemptResult ((fun _ : ℕ => FetchOutcome.netErr "down") i) =
      Except.error ((fun _ : ℕ => JsError.network "down") i) := by
    intro i
    rfl
  have hnone : ∀ st, p0Iteration (fun _ => FetchOutcome.netErr "down") (fun _ => "tok")
      "1.2.3.4" callFuel st = none := by
    intro st
    simp only [p0Iteration, retryFetchAux_allfail_infinite _ _ 1000 hfail]
  have hproc : ∀ itf st, processNodeP0 (fun _ => FetchOutcome.netErr "down")
      (fun _ => "tok") "1.2.3.4" callFuel itf st = none := by
    intro itf st
    cases itf with
    | zero => rfl
    | succ n => simp [processNodeP0, hnone]
  have hvA : entryValid ⟨"A", some "hA"⟩ = true := by decide
  simp [runAllP0, hvA, hproc]

/-- C2 amended: the claim holds of part_001's orchestrator — its runAll loop
calls `processNode(...)` without `await`, spawning one independent lifecycle
task per entry (the spawn list is a pure function of the entries, so it
cannot depend on any node's fetch outcomes), and each task progresses on its
own oracle alone: with node A's registration failing twice before succeeding
and node B's calls succeeding immediately, both reach Heartbeating — A after
two retried iterations, B at once, unblocked by A.  In part_000, however,
runAll awaits each node's whole onboarding inline before touching the next
entry, so there a node whose infinitely retried registration keeps failing
blocks every later node from ever starting (see the counterexample). -/
theorem runAllP1_fire_and_forget_amended :
    runAllP1spawn [⟨"A", some "hA"⟩, ⟨"B", some "hB"⟩] =
      [⟨"A", some "hA"⟩, ⟨"B", some "hB"⟩] ∧
    processNodeP1 (fun i => if i < 2 then FetchOutcome.netErr "x"
        else FetchOutcome.resp ⟨true, "OK", true, ""⟩) (fun _ => "tok") "1.2.3.4" 3
        ⟨0, 0, [], []⟩ =
      some ⟨5, 5, [⟨ReqKind.register, "tok", some "1.2.3.4"⟩,
        ⟨ReqKind.register, "tok", some "1.2.3.4"⟩,
        ⟨ReqKind.register, "tok", some "1.2.3.4"⟩,
        ⟨ReqKind.session, "tok", none⟩, ⟨ReqKind.ping, "tok", none⟩], []⟩ ∧
    processNodeP1 (fun _ => FetchOutcome.resp ⟨true, "OK", true, ""⟩)
        (fun _ => "tok") "1.2.3.4" 1 ⟨0, 0, [], []⟩ =
      some ⟨3, 3, [⟨ReqKind.register, "tok", some "1.2.3.4"⟩,
        ⟨ReqKind.session, "tok", none⟩, ⟨ReqKind.ping, "tok", none⟩], []⟩ :=
  ⟨rfl, by decide, by decide⟩

/-- C4 counterexample: in part_000 (one of the claim's anchors) the initial
ping of the SessionActive → Heartbeating transition is NOT a single attempt
with no retry wrapper: pingNode calls `retryFetch` with its default
arguments, so with every attempt failing the initial ping makes 4 attempts
(oracle indices 0-3) with three 1000 ms retry waits before any failure is
raised to the recovery boundary. -/
theorem initial_ping_retry_wrapped_cx :
    pingFetchP0 (fun _ => FetchOutcome.netErr "down") 10 0 [] =
      some (Except.error (JsError.network "down"), 4, [1000, 1000, 1000]) := by
  decide

/-- C4 amended: the single-attempt description holds of part_001's pingNode —
one raw fetch whose result depends on exactly one oracle outcome and whose
network failure raises immediately — while part_000's pingNode wraps the
initial ping in the bounded executor (`infiniteRetry = false, retries = 3,
delay = 1000`), so there a persistent failure reaches the enclosing recovery
boundary only after exactly 4 attempts and three fixed 1000 ms waits. -/
theorem initial_ping_amended
    (o o2 : ℕ → FetchOutcome) (i : ℕ) (m : String)
    (op : ℕ → FetchOutcome) (errs : ℕ → JsError) (cf fidx : ℕ) (waits : List ℕ)
    (hsame : o i = o2 i) (hnet : o i = FetchOutcome.netErr m)
    (hfail : ∀ j, attemptResult (op j) = Except.error (errs j)) (hcf : 3 < cf) :
    p1Call o i = p1Call o2 i ∧
    p1Call o i = Except.error (JsError.network m) ∧
    pingFetchP0 op cf fidx waits =
      some (Except.error (errs (fidx + 3)), fidx + 4, waits ++ List.replicate 3 1000) := by
  refine ⟨by simp [p1Call, hsame], by simp [p1Call, hnet], ?_⟩
  have h := retryFetchAux_allfail_bounded op errs 1000 hfail 3 cf fidx waits hcf
  have e1 : fidx + 3 + 1 = fidx + 4 := by omega
  rw [e1] at h
  simpa [pingFetchP0] using h

theorem initial_ping_amended_witness :
    p1Call (fun _ => FetchOutcome.netErr "down") 0 =
      p1Call (fun _ => FetchOutcome.netErr "down") 0 ∧
    p1Call (fun _ => FetchOutcome.netErr "down") 0 =
      Except.error (JsError.network "down") ∧
    pingFetchP0 (fun _ => FetchOutcome.netErr "down") 10 0 [] =
      some (Except.error (JsError.network "down"), 0 + 4, [] ++ List.replicate 3 1000) :=
  initial_ping_amended (fun _ => FetchOutcome.netErr "down")
    (fun _ => FetchOutcome.netErr "down") 0 "down"
    (fun _ => FetchOutcome.netErr "down") (fun _ => JsError.network "down") 10 0 []
    rfl rfl (fun _ => rfl) (by omega)

/-- Every request in the list carries bearer token `t`, and any request body
IP it sends is the startup `ip`. -/
def reqsShared (t ip : String) (l : List Request) : Prop :=
  ∀ q ∈ l, q.token = t ∧ (q.ip = none ∨ q.ip = some ip)

theorem p1Iteration_reqs_shared (oracle : ℕ → FetchOutcome) (userFile : ℕ → String)
    (ip t : String) (st st' : TraceSt)
    (huf : ∀ i, userFile i = t)
    (hst : reqsShared t ip st.reqs)
    (h : p1Iteration oracle userFile ip st = Except.ok st' ∨
         p1Iteration oracle userFile ip st = Except.error st') :
    reqsShared t ip st'.reqs := by
  have hext : ∀ (l : List Request) (k : ReqKind) (i : ℕ) (v : Option String),
      reqsShared t ip l → (v = none ∨ v = some ip) →
      reqsShared t ip (l ++ [⟨k, userFile i, v⟩]) := by
    intro l k i v hl hv q hq
    rcases List.mem_append.mp hq with hq | hq
    · exact hl q hq
    · rcases List.mem_singleton.mp hq with rfl
      exact ⟨huf i, hv⟩
  have h1 : reqsShared t ip (st.reqs ++ [⟨ReqKind.register, userFile st.ridx, some ip⟩]) :=
    hext _ _ _ _ hst (Or.inr rfl)
  have h2 : reqsShared t ip ((st.reqs ++ [⟨ReqKind.register, userFile st.ridx, some ip⟩])
      ++ [⟨ReqKind.session, userFile (st.ridx + 1), none⟩]) :=
    hext _ _ _ _ h1 (Or.inl rfl)
  have h3 : reqsShared t ip (((st.reqs ++ [⟨ReqKind.register, userFile st.ridx, some ip⟩])
      ++ [⟨ReqKind.session, userFile (st.ridx + 1), none⟩])
      ++ [⟨ReqKind.ping, userFile (st.ridx + 1 + 1), none⟩]) :=
    hext _ _ _ _ h2 (Or.inl rfl)
  rcases h with h | h
  · simp only [p1Iteration] at h
    split at h
    · exact absurd h (by simp)
    · split at h
      · exact absurd h (by simp)
      · split at h
        · exact absurd h (by simp)
        · rw [Except.ok.injEq] at h
          subst h
          exact h3
  · simp only [p1Iteration] at h
    split at h
    · rw [Except.error.injEq] at h
      subst h
      exact h1
    · split at h
      · rw [Except.error.injEq] at h
        subst h
        exact h2
      · split at h
        · rw [Except.error.injEq] at h
          subst h
          exact h3
        · exact absurd h (by simp)

theorem processNodeP1_reqs_shared (oracle : ℕ → FetchOutcome) (userFile : ℕ → String)
    (ip t : String) (huf : ∀ i, userFile i = t) :
    ∀ (fuel : ℕ) (st st' : TraceSt), reqsShared t ip st.reqs →
      processNodeP1 oracle userFile ip fuel st = some st' →
      reqsShared t ip st'.reqs := by
  intro fuel
  induction fuel with
  | zero => intro st st' _ h; exact absurd h (by simp [processNodeP1])
  | succ n ih =>
    intro st st' hst h
    simp only [processNodeP1] at h
    match h0 : p1Iteration oracle userFile ip st with
    | Except.ok st2 =>
      rw [h0] at h
      simp only [Option.some.injEq] at h
      rw [← h]
      exact p1Iteration_reqs_shared oracle userFile ip t st st2 huf hst (Or.inl h0)
    | Except.error st2 =>
      rw [h0] at h
      exact ih st2 st'
        (p1Iteration_reqs_shared oracle userFile ip t st st2 huf hst (Or.inr h0)) h

/-- C5 counterexample: the authToken is NOT obtained once at startup and
never re-read — part_001's registerNode, startSession and pingNode each
re-read user.txt (readAuthToken, part_001:66-69) before their request, so in
a run where the file's content differs between reads, one and the same
lifecycle issues its registration with one token and its session-start and
ping with another, refuting "the token each node uses in registration,
session-start, and ping is the same single value obtained once at startup". -/
theorem auth_token_reread_cx :
    processNodeP1 (fun _ => FetchOutcome.resp ⟨true, "OK", true, ""⟩)
        (fun i => if i = 0 then "tok0" else "tok1") "1.2.3.4" 1 ⟨0, 0, [], []⟩ =
      some ⟨3, 3, [⟨ReqKind.register, "tok0", some "1.2.3.4"⟩,
        ⟨ReqKind.session, "tok1", none⟩, ⟨ReqKind.ping, "tok1", none⟩], []⟩ := by
  decide

/-- C5 amended: one startup `ipAddress` is passed read-only into every
lifecycle and any request body IP is exactly it; the authToken, however, is
re-read from user.txt before every request rather than obtained once, so
every request of a lifecycle run carries one and the same token `t` precisely
under the assumption that the file's content is constantly `t`.  Nothing ever
mutates the shared token or IP (the model threads them as immutable values;
the file oracle is read-only). -/
theorem shared_token_ip_amended (oracle : ℕ → FetchOutcome)
    (userFile : ℕ → String) (ip t : String) (fuel : ℕ) (st' : TraceSt)
    (huf : ∀ i, userFile i = t)
    (hrun : processNodeP1 oracle userFile ip fuel ⟨0, 0, [], []⟩ = some st') :
    reqsShared t ip st'.reqs :=
  processNodeP1_reqs_shared oracle userFile ip t huf fuel ⟨0, 0, [], []⟩ st'
    (by intro q hq; cases hq) hrun

theorem shared_token_ip_amended_witness :
    reqsShared "tok" "1.2.3.4"
      (TraceSt.reqs ⟨3, 3, [⟨ReqKind.register, "tok", some "1.2.3.4"⟩,
        ⟨ReqKind.session, "tok", none⟩, ⟨ReqKind.ping, "tok", none⟩], []⟩) :=
  shared_token_ip_amended (fun _ => FetchOutcome.resp ⟨true, "OK", true, ""⟩)
    (fun _ => "tok") "1.2.3.4" "tok" 1
    ⟨3, 3, [⟨ReqKind.register, "tok", some "1.2.3.4"⟩,
      ⟨ReqKind.session, "tok", none⟩, ⟨ReqKind.ping, "tok", none⟩], []⟩
    (fun _ => rfl) (by decide)

/-- C6 counterexample: a failing scheduled heartbeat firing is logged but it
DOES propagate further — part_001's interval callback (part_001:215-223)
catches the ping error, logs it, and then rethrows it (`throw error`,
part_001:221), so the firing's promise settles as a rejection that escapes
the firing instead of being swallowed. -/
theorem scheduled_firing_rethrows_cx :
    scheduledFiringP1 (fun _ => FetchOutcome.netErr "boom") 0 =
      (Except.error (JsError.network "boom"), ["Error during ping: boom"]) := by
  decide

/-- C6 amended: a failure of a scheduled (non-initial) heartbeat firing is
logged, but then PROPAGATES out of the firing: part_001's callback rethrows
the error after logging it, and part_000's `setInterval(pingNode, 60000)`
(part_000:180) has no catch at all, so there the rejection escapes after the
bounded wrapper's 4 attempts.  The firing never re-enters the node's own
onboarding loop (that loop already exited at `break`), but the error is not
contained within the firing. -/
theorem scheduled_firing_amended (o : ℕ → FetchOutcome) (fidx : ℕ) (e : JsError)
    (op : ℕ → FetchOutcome) (errs : ℕ → JsError) (cf f2 : ℕ)
    (h : p1Call o fidx = Except.error e)
    (hfail : ∀ j, attemptResult (op j) = Except.error (errs j)) (hcf : 3 < cf) :
    scheduledFiringP1 o fidx =
      (Except.error e, ["Error during ping: " ++ e.message]) ∧
    scheduledFiringP0 op cf f2 = some (Except.error (errs (f2 + 3)), f2 + 4) := by
  constructor
  · simp [scheduledFiringP1, h]
  · have hb := retryFetchAux_allfail_bounded op errs 1000 hfail 3 cf f2 [] hcf
    have e1 : f2 + 3 + 1 = f2 + 4 := by omega
    rw [e1] at hb
    simp only [Nat.cast_ofNat] at hb
    simp [scheduledFiringP0, pingFetchP0, hb]

theorem scheduled_firing_amended_witness :
    scheduledFiringP1 (fun _ => FetchOutcome.netErr "boom2") 1 =
      (Except.error (JsError.network "boom2"),
        ["Error during ping: " ++ JsError.message (JsError.network "boom2")]) ∧
    scheduledFiringP0 (fun _ => FetchOutcome.netErr "boom2") 10 0 =
      some (Except.error (JsError.network "boom2"), 0 + 4) :=
  scheduled_firing_amended (fun _ => FetchOutcome.netErr "boom2") 1
    (JsError.network "boom2") (fun _ => FetchOutcome.netErr "boom2")
    (fun _ => JsError.network "boom2") 10 0 rfl (fun _ => rfl) (by omega)

/-- C7 counterexample: part_001's recovery path does NOT wait a fixed 5 s
before restarting — its catch block (part_001:227-229) only logs and loops
again.  With the registration failing once before the lifecycle succeeds, the
trace shows a restart (two register requests issued) with an EMPTY list of
awaited delays, refuting the claimed 5-second recovery delay. -/
theorem p1_restart_without_delay_cx :
    processNodeP1 (fun i => if i = 0 then FetchOutcome.netErr "x"
        else FetchOutcome.resp ⟨true, "OK", true, ""⟩) (fun _ => "tok") "1.2.3.4" 2
        ⟨0, 0, [], []⟩ =
      some ⟨4, 4, [⟨ReqKind.register, "tok", some "1.2.3.4"⟩,
        ⟨ReqKind.register, "tok", some "1.2.3.4"⟩,
        ⟨ReqKind.session, "tok", none⟩, ⟨ReqKind.ping, "tok", none⟩], []⟩ := by
  decide

/-- C7 amended: in part_000 an unhandled lifecycle error is logged, the loop
waits the fixed 5 s recovery delay, discards its per-iteration context
(user.txt is re-read on restart) and restarts from registration for the same
node: here the initial ping exhausts its 4 attempts (indices 2-5, three
1000 ms retry waits), the catch records the 5000 ms recovery wait, and the
second iteration re-runs register, session and ping to Heartbeating — the
wait list is exactly [1000, 1000, 1000, 5000] and the request trace shows the
full restart.  In part_001 the same recovery is immediate: a failed
session-start restarts the lifecycle from registration with NO recorded
delay. -/
theorem failed_lifecycle_recovery_amended :
    processNodeP0 (fun i => if 2 ≤ i ∧ i ≤ 5 then FetchOutcome.netErr "x"
        else FetchOutcome.resp ⟨true, "OK", true, ""⟩) (fun _ => "tok") "1.2.3.4" 20 5
        ⟨0, 0, [], []⟩ =
      some ⟨9, 2, [⟨ReqKind.register, "tok", some "1.2.3.4"⟩,
        ⟨ReqKind.session, "tok", none⟩, ⟨ReqKind.ping, "tok", none⟩,
        ⟨ReqKind.register, "tok", some "1.2.3.4"⟩,
        ⟨ReqKind.session, "tok", none⟩, ⟨ReqKind.ping, "tok", none⟩],
        [1000, 1000, 1000, 5000]⟩ ∧
    processNodeP1 (fun i => if i = 1 then FetchOutcome.netErr "x"
        else FetchOutcome.resp ⟨true, "OK", true, ""⟩) (fun _ => "tok") "1.2.3.4" 2
        ⟨0, 0, [], []⟩ =
      some ⟨5, 5, [⟨ReqKind.register, "tok", some "1.2.3.4"⟩,
        ⟨ReqKind.session, "tok", none⟩,
        ⟨ReqKind.register, "tok", some "1.2.3.4"⟩,
        ⟨ReqKind.session, "tok", none⟩, ⟨ReqKind.ping, "tok", none⟩], []⟩ :=
  ⟨by decide, by decide⟩

/-- C8 counterexample: part_001's orchestrator does not skip an entry whose
hardwareId is missing — readNodeAndHardwareIds (part_001:57-64) filters only
blank lines, so parsing "A:h1\nB\nC:h3" keeps the colon-less entry B with an
undefined hardwareId, and the spawn loop (part_001:244-247) launches a
lifecycle task for it instead of skipping it. -/
theorem p1_spawns_invalid_entry_cx :
    parseIdsP1 "A:h1\nB\nC:h3" =
      [⟨"A", some "h1"⟩, ⟨"B", none⟩, ⟨"C", some "h3"⟩] ∧
    (⟨"B", none⟩ : SpawnedTask) ∈ runAllP1spawn (parseIdsP1 "A:h1\nB\nC:h3") := by
  constructor
  · decide
  · decide

/-- C8 amended: in part_000 (and bless.js, whose guard is the textually
identical `if (!nodeId || !hardwareId)`) an entry with a missing or empty
nodeId or hardwareId is logged into the skipped list and the orchestrator
continues with the remaining entries from an otherwise unchanged state — the
run is never aborted by such an entry; part_001 performs no per-entry
validity check at all (see the counterexample). -/
theorem invalid_entry_skip_amended (oracle : ℕ → FetchOutcome)
    (userFile : ℕ → String) (ip : String) (callFuel iterFuel : ℕ)
    (e : IdEntry) (rest : List IdEntry) (acc : P0Run)
    (hinv : entryValid e = false) :
    runAllP0 oracle userFile ip callFuel iterFuel (e :: rest) acc =
      runAllP0 oracle userFile ip callFuel iterFuel rest
        ⟨acc.skipped ++ [e.nodeId], acc.started, acc.heartbeating, acc.st⟩ := by
  simp [runAllP0, hinv]

theorem invalid_entry_skip_amended_witness :
    runAllP0 (fun _ => FetchOutcome.resp ⟨true, "OK", true, ""⟩) (fun _ => "tok")
        "1.2.3.4" 10 5 [⟨"B", none⟩, ⟨"C", some "hC"⟩] ⟨[], [], [], ⟨0, 0, [], []⟩⟩ =
      runAllP0 (fun _ => FetchOutcome.resp ⟨true, "OK", true, ""⟩) (fun _ => "tok")
        "1.2.3.4" 10 5 [⟨"C", some "hC"⟩] ⟨[] ++ ["B"], [], [], ⟨0, 0, [], []⟩⟩ :=
  invalid_entry_skip_amended (fun _ => FetchOutcome.resp ⟨true, "OK", true, ""⟩)
    (fun _ => "tok") "1.2.3.4" 10 5 ⟨"B", none⟩ [⟨"C", some "hC"⟩]
    ⟨[], [], [], ⟨0, 0, [], []⟩⟩ (by decide)

theorem serviceCall_ok_source (oracle : ℕ → FetchOutcome) (callFuel fIdx : ℕ)
    (v : String) (f : ℕ)
    (h : serviceCall oracle callFuel fIdx = some (Except.ok v, f)) :
    ∃ i r, oracle i = FetchOutcome.resp r ∧ v = r.jsonIp := by
  unfold serviceCall at h
  split at h
  · exact absurd h (by simp)
  · simp at h
  · rename_i r0 f0 w heq
    by_cases hj : r0.jsonOk = true
    · rw [if_pos hj] at h
      simp only [Option.some.injEq, Prod.mk.injEq, Except.ok.injEq] at h
      obtain ⟨h1, -⟩ := h
      obtain ⟨i, hi⟩ := retryFetchAux_ok_source oracle true 1000 callFuel 3 fIdx [] r0 f0 w heq
      exact ⟨i, r0, hi, h1.symm⟩
    · rw [if_neg hj] at h
      simp at h

theorem fetchIpAddressP0_ip_source (inputs : ℕ → String) (oracle : ℕ → FetchOutcome)
    (localIp : String) (callFuel : ℕ) :
    ∀ (fuel : ℕ) (st : IpFetchSt) (v : String) (st' : IpFetchSt),
      fetchIpAddressP0 inputs oracle localIp callFuel fuel st =
        some (IpOutcome.ip v, st') →
      isValidIP v = true ∨ (∃ i r, oracle i = FetchOutcome.resp r ∧ v = r.jsonIp)
        ∨ v = localIp := by
  intro fuel
  induction fuel with
  | zero => intro st v st' h; exact absurd h (by simp [fetchIpAddressP0])
  | succ n ih =>
    intro st v st' h
    simp only [fetchIpAddressP0] at h
    by_cases h1 : inputs st.inIdx = "1"
    · rw [if_pos h1] at h
      by_cases hv : isValidIP (inputs (st.inIdx + 1)) = true
      · rw [if_pos hv] at h
        simp only [Option.some.injEq, Prod.mk.injEq, IpOutcome.ip.injEq] at h
        obtain ⟨h2, -⟩ := h
        left
        rw [← h2]
        exact hv
      · rw [if_neg hv] at h
        exact ih _ v st' h
    · rw [if_neg h1] at h
      by_cases h2 : inputs st.inIdx = "2"
      · rw [if_pos h2] at h
        split at h
        · exact absurd h (by simp)
        · rename_i u f heq
          simp only [Option.some.injEq, Prod.mk.injEq, IpOutcome.ip.injEq] at h
          obtain ⟨h3, -⟩ := h
          right; left
          rw [← h3]
          exact serviceCall_ok_source oracle callFuel st.fIdx u f heq
        · simp at h
      · rw [if_neg h2] at h
        by_cases h3 : inputs st.inIdx = "3"
        · rw [if_pos h3] at h
          simp only [Option.some.injEq, Prod.mk.injEq, IpOutcome.ip.injEq] at h
          obtain ⟨h4, -⟩ := h
          right; right
          exact h4.symm
        · rw [if_neg h3] at h
          split at h
          · exact absurd h (by simp)
          · rename_i u f heq
            simp only [Option.some.injEq, Prod.mk.injEq, IpOutcome.ip.injEq] at h
            obtain ⟨h4, -⟩ := h
            right; left
            rw [← h4]
            exact serviceCall_ok_source oracle callFuel st.fIdx u f heq
          · simp at h

/-- C9: `isValidIP` accepts exactly the dotted-quad IPv4 literals whose octets
lie in 0-255 (in particular it rejects "999.1.1.1" and "abc"); a
`fetchIpAddress` run that picks manual entry and receives a string failing
that validation logs the error and recurses to re-prompt; and consequently
any IP value a run ever returns is either a manual entry that passed
`isValidIP`, the IP-service response body's `ip` field, or the local
interface address — never an invalid manually typed string. -/
theorem isValidIP_dotted_quad_and_reprompt
    (inputs : ℕ → String) (oracle : ℕ → FetchOutcome) (localIp : String)
    (callFuel fuel : ℕ) (st : IpFetchSt) (v : String) (st' : IpFetchSt)
    (inputs2 : ℕ → String) (oracle2 : ℕ → FetchOutcome) (localIp2 : String)
    (cf2 f2 : ℕ) (st2 : IpFetchSt)
    (hres : fetchIpAddressP0 inputs oracle localIp callFuel fuel st =
      some (IpOutcome.ip v, st'))
    (hchoice : inputs2 st2.inIdx = "1")
    (hbad : isValidIP (inputs2 (st2.inIdx + 1)) = false) :
    (∀ s, isValidIP s = specDottedQuad s) ∧
    (isValidIP "999.1.1.1" = false ∧ isValidIP "abc" = false) ∧
    (isValidIP v = true ∨ (∃ i r, oracle i = FetchOutcome.resp r ∧ v = r.jsonIp)
      ∨ v = localIp) ∧
    fetchIpAddressP0 inputs2 oracle2 localIp2 cf2 (f2 + 1) st2 =
      fetchIpAddressP0 inputs2 oracle2 localIp2 cf2 f2
        ⟨st2.inIdx + 2, st2.fIdx, st2.logs ++ ["Invalid IP address. Please try again."]⟩ := by
  refine ⟨isValidIP_eq_specDottedQuad, ⟨by decide, by decide⟩, ?_, ?_⟩
  · exact fetchIpAddressP0_ip_source inputs oracle localIp callFuel fuel st v st' hres
  · simp [fetchIpAddressP0, hchoice, hbad]

theorem isValidIP_dotted_quad_and_reprompt_witness :
    (∀ s, isValidIP s = specDottedQuad s) ∧
    (isValidIP "999.1.1.1" = false ∧ isValidIP "abc" = false) ∧
    (isValidIP "10.0.0.1" = true ∨
      (∃ i r, (fun _ : ℕ => FetchOutcome.netErr "down") i = FetchOutcome.resp r ∧
        "10.0.0.1" = r.jsonIp) ∨ "10.0.0.1" = "127.0.0.1") ∧
    fetchIpAddressP0
        (fun i => if i = 0 then "1" else if i = 1 then "abc"
          else if i = 2 then "1" else "10.0.0.1")
        (fun _ => FetchOutcome.netErr "down") "127.0.0.1" 5 (2 + 1) ⟨0, 0, []⟩ =
      fetchIpAddressP0
        (fun i => if i = 0 then "1" else if i = 1 then "abc"
          else if i = 2 then "1" else "10.0.0.1")
        (fun _ => FetchOutcome.netErr "down") "127.0.0.1" 5 2
        ⟨0 + 2, 0, [] ++ ["Invalid IP address. Please try again."]⟩ :=
  isValidIP_dotted_quad_and_reprompt
    (fun i => if i = 0 then "1" else if i = 1 then "abc"
      else if i = 2 then "1" else "10.0.0.1")
    (fun _ => FetchOutcome.netErr "down") "127.0.0.1" 5 3 ⟨0, 0, []⟩
    "10.0.0.1" ⟨4, 0, ["Invalid IP address. Please try again."]⟩
    (fun i => if i = 0 then "1" else if i = 1 then "abc"
      else if i = 2 then "1" else "10.0.0.1")
    (fun _ => FetchOutcome.netErr "down") "127.0.0.1" 5 2 ⟨0, 0, []⟩
    (by decide) (by decide) (by decide)

end BlessNet
